import Mathlib

/-!
Shallow embedding of the transaction backend in `src/app.py`
(Flask + SQLAlchemy + Celery).  The database is modelled as an in-memory
store: a list of users and a list of transactions, in insertion order.
Currency amounts (`db.Float` columns) are modelled as exact rationals and
timestamps (`db.DateTime`) as integer seconds; the claims under study are
about control flow, state transitions and which product is stored, not
about floating-point rounding.  Each HTTP handler becomes a pure function
from the store (plus its request parameters) to a response value and the
resulting store.
-/

namespace FlaskTest

/-- `User` model, src/app.py lines 31-37.  `webhook_url` and `usdt_wallet`
are nullable columns, hence `Option String`. -/
structure User where
  id : Nat
  balance : Rat
  commission_rate : Rat
  webhook_url : Option String
  role : String
  usdt_wallet : Option String
deriving DecidableEq

/-- `Transaction` model, src/app.py lines 39-45.  `status` is a free-form
string column whose intended values are pending, confirmed, canceled,
expired; `created_at` is a timestamp in seconds. -/
structure Transaction where
  id : Nat
  amount : Rat
  commission : Rat
  status : String
  created_at : Int
  user_id : Nat
deriving DecidableEq

/-- The database: the `user` and `transaction` tables, rows in insertion
order. -/
structure Store where
  users : List User
  transactions : List Transaction
deriving DecidableEq

/-- `User.query.get(user_id)`: primary-key lookup, the first row whose id
matches (ids are unique in the real database). -/
def getUser (s : Store) (uid : Nat) : Option User :=
  s.users.find? (fun u => u.id == uid)

/-- `Transaction.query.get(transaction_id)`: primary-key lookup. -/
def getTransaction (s : Store) (tid : Nat) : Option Transaction :=
  s.transactions.find? (fun t => t.id == tid)

/-- The autoincrement id SQLite assigns to a freshly inserted transaction
row: one more than the largest id present. -/
def nextId (s : Store) : Nat :=
  (s.transactions.foldr (fun t m => max t.id m) 0) + 1

/-- Response of `/api/create_transaction`: 404 `{'error': 'User not found'}`
or 201 `{'transaction_id': ...}` (src/app.py lines 126, 132). -/
inductive CreateResult where
  | notFound
  | created (transaction_id : Nat)
deriving DecidableEq

/-- HTTP status code attached to each `create_transaction` outcome. -/
def CreateResult.httpStatus : CreateResult → Nat
  | .notFound => 404
  | .created _ => 201

/-- `create_transaction` handler, src/app.py lines 92-132: look the user up
by id; on miss answer 404 and touch nothing; otherwise compute
`commission = amount * user.commission_rate`, insert a new transaction row
with status defaulted to `'pending'` and `created_at` defaulted to the
current time, commit, and answer 201 with the new row's id. -/
def create_transaction (s : Store) (user_id : Nat) (amount : Rat) (now : Int) :
    CreateResult × Store :=
  match getUser s user_id with
  | none => (CreateResult.notFound, s)
  | some user =>
      let commission := amount * user.commission_rate
      let t : Transaction :=
        { id := nextId s, amount := amount, commission := commission,
          status := "pending", created_at := now, user_id := user_id }
      (CreateResult.created t.id, { s with transactions := s.transactions ++ [t] })

/-- In-place mutation of the row `Transaction.query.get` returned:
overwrite the `status` field of the first transaction whose id matches,
leaving every other row and every other field alone. -/
def setStatus : List Transaction → Nat → String → List Transaction
  | [], _, _ => []
  | t :: rest, tid, st =>
      if t.id == tid then { t with status := st } :: rest
      else t :: setStatus rest tid st

/-- Response of `/api/cancel_transaction`: 404 or 200 `{'status': ...}`
(src/app.py lines 165, 170). -/
inductive CancelResult where
  | notFound
  | ok (status : String)
deriving DecidableEq

/-- HTTP status code attached to each `cancel_transaction` outcome. -/
def CancelResult.httpStatus : CancelResult → Nat
  | .notFound => 404
  | .ok _ => 200

/-- `cancel_transaction` handler, src/app.py lines 134-170: look the
transaction up by id; on miss answer 404; if its status is `'pending'` set
it to `'canceled'` and commit; either way answer 200 with the (possibly
updated) status read back from the row. -/
def cancel_transaction (s : Store) (transaction_id : Nat) : CancelResult × Store :=
  match getTransaction s transaction_id with
  | none => (CancelResult.notFound, s)
  | some t =>
      if t.status == "pending" then
        (CancelResult.ok "canceled",
         { s with transactions := setStatus s.transactions transaction_id "canceled" })
      else
        (CancelResult.ok t.status, s)

/-- Response of `/api/check_transaction`: 404 or 200
`{'transaction_id': ..., 'status': ...}` (src/app.py lines 200, 202-205). -/
inductive CheckResult where
  | notFound
  | ok (transaction_id : Nat) (status : String)
deriving DecidableEq

/-- HTTP status code attached to each `check_transaction` outcome. -/
def CheckResult.httpStatus : CheckResult → Nat
  | .notFound => 404
  | .ok _ _ => 200

/-- `check_transaction` handler, src/app.py lines 172-205: look the
transaction up by id; on miss answer 404; otherwise answer 200 with its id
and current status.  No write is performed. -/
def check_transaction (s : Store) (transaction_id : Nat) : CheckResult × Store :=
  match getTransaction s transaction_id with
  | none => (CheckResult.notFound, s)
  | some t => (CheckResult.ok t.id t.status, s)

/-- Observable actions of a sweeper run, in program order: a `commit`
records `db.session.commit()` persisting a status change of the named
transaction (line 215), a `post` records the outbound
`requests.post(url, json={'transaction_id': ..., 'status': ...})` that
lines 218-221 would perform.  (As proved below, no run can actually emit a
`post`: line 217 raises before line 218 is reached.) -/
inductive Event where
  | commit (transaction_id : Nat) (status : String)
  | post (url : String) (transaction_id : Nat) (status : String)
deriving DecidableEq

/-- Whether an event is a webhook POST. -/
def Event.isPost : Event → Bool
  | .post _ _ _ => true
  | .commit _ _ => false

/-- A Python exception escaping the task. -/
inductive PyError where
  | attributeError (msg : String)
deriving DecidableEq

/-- Result of running the sweeper (or a piece of it): the store as left by
the per-row commits performed so far, the actions performed in program
order, and the exception that aborted the run, if any.  A commit is
durable, so a run that aborts still leaves its earlier commits in the
store. -/
structure RunResult where
  store : Store
  events : List Event
  error : Option PyError
deriving DecidableEq

/-- One iteration of the sweep loop, src/app.py lines 213-221: if the row
is older than 900 seconds, set its status to `'expired'` and commit
(lines 214-215); then line 217 evaluates `transaction.user` — but the
`Transaction` model (lines 39-45) declares only the `user_id` foreign-key
column and no `db.relationship`, so no `user` attribute exists and the
access raises AttributeError.  The iteration therefore aborts right after
the commit: the POST at lines 218-221 is unreachable and no webhook is
ever sent.  A row aged 900 seconds or less is left alone and the loop
moves on. -/
def sweepOne (now : Int) (s : Store) (t : Transaction) : RunResult :=
  if now - t.created_at > 900 then
    { store := { s with transactions := setStatus s.transactions t.id "expired" },
      events := [Event.commit t.id "expired"],
      error := some (PyError.attributeError
        "'Transaction' object has no attribute 'user'") }
  else { store := s, events := [], error := none }

/-- The `for transaction in pending_transactions:` loop, src/app.py
lines 212-221: run the iterations in order, stopping at the first one that
raises (its commit is already persisted); the exception propagates out of
the loop. -/
def sweepGo (now : Int) (s : Store) : List Transaction → RunResult
  | [] => { store := s, events := [], error := none }
  | t :: rest =>
      let p := sweepOne now s t
      match p.error with
      | some e => { store := p.store, events := p.events, error := some e }
      | none =>
          let q := sweepGo now p.store rest
          { store := q.store, events := p.events ++ q.events, error := q.error }

/-- The loop body of the task, src/app.py lines 211-221, given the current
time `now`: snapshot every transaction whose status is `'pending'`
(`Transaction.query.filter_by(status='pending').all()`), then run the loop
over that snapshot.  It expires (and commits) at most the first stale row
of the snapshot, then aborts on line 217 without posting anything. -/
def sweepLoop (now : Int) (s : Store) : RunResult :=
  sweepGo now s (s.transactions.filter (fun t => t.status == "pending"))

/-- The Celery task `check_pending_transactions`, src/app.py
lines 208-221, as it actually executes.  Its first statement (line 210) is
`now = datetime.datetime.utcnow()`; but line 11 imported the *class*
(`from datetime import datetime`), which has no attribute `datetime`, so
the statement raises AttributeError and the task aborts before the query
at line 211 runs: the store is untouched and nothing is committed or
posted.  (Lines 211-221, the code the task would run after that line, are
embedded separately as `sweepLoop`.) -/
def check_pending_transactions (s : Store) : RunResult :=
  { store := s, events := [],
    error := some (PyError.attributeError
      "type object 'datetime.datetime' has no attribute 'datetime'") }

/-- Checks a sweep trace against the commit-before-notify discipline:
scanning the events in program order while accumulating the ids already
committed as `'expired'`, every `post` must name an id committed as expired
at an earlier point of the trace, and must itself carry status
`'expired'`. -/
def goodTrace : List Nat → List Event → Bool
  | _, [] => true
  | c, Event.commit tid st :: rest =>
      goodTrace (if st == "expired" then tid :: c else c) rest
  | c, Event.post _ tid st :: rest =>
      (c.contains tid && (st == "expired")) && goodTrace c rest

/-- The four intended values of the `status` column (comment at
src/app.py line 43). -/
def validStatus (st : String) : Prop :=
  st = "pending" ∨ st = "confirmed" ∨ st = "canceled" ∨ st = "expired"

/-- Concrete fixture: a user with a 1% commission rate and a configured
webhook. -/
def demoUser : User :=
  { id := 1, balance := 0, commission_rate := 1/100,
    webhook_url := some "http://example.com/hook", role := "user",
    usdt_wallet := none }

/-- Concrete fixture: a pending transaction of user 1 created at time 0. -/
def demoTx : Transaction :=
  { id := 1, amount := 100, commission := 1, status := "pending",
    created_at := 0, user_id := 1 }

/-- Concrete fixture: a confirmed transaction of user 1 created at time 0. -/
def demoConfirmedTx : Transaction :=
  { id := 2, amount := 50, commission := 1/2, status := "confirmed",
    created_at := 0, user_id := 1 }

/-- Concrete fixture: one user, one pending transaction. -/
def demoStore : Store :=
  { users := [demoUser], transactions := [demoTx] }

/-- Concrete fixture: one user, a pending and a confirmed transaction. -/
def demoStore2 : Store :=
  { users := [demoUser], transactions := [demoTx, demoConfirmedTx] }

/-- Concrete fixture: the empty database. -/
def emptyStore : Store :=
  { users := [], transactions := [] }

/-! ### Generic list bridging lemmas -/

/-- An index that yields `some a` witnesses membership. -/
theorem memOfGetElem? {α : Type} {l : List α} {i : Nat} {a : α}
    (h : l[i]? = some a) : a ∈ l := by
  obtain ⟨hlt, he⟩ := List.getElem?_eq_some.mp h
  exact he ▸ List.getElem_mem hlt

/-! ### Properties of the in-place status update -/

theorem setStatus_length (ts : List Transaction) (tid : Nat) (st : String) :
    (setStatus ts tid st).length = ts.length := by
  induction ts with
  | nil => rfl
  | cons t rest ih =>
      simp only [setStatus]
      split <;> simp [ih]

theorem setStatus_map_id (ts : List Transaction) (tid : Nat) (st : String) :
    (setStatus ts tid st).map (fun x => x.id) = ts.map (fun x => x.id) := by
  induction ts with
  | nil => rfl
  | cons t rest ih =>
      simp only [setStatus]
      split <;> simp [ih]

theorem setStatus_map_commission (ts : List Transaction) (tid : Nat) (st : String) :
    (setStatus ts tid st).map (fun x => x.commission) =
      ts.map (fun x => x.commission) := by
  induction ts with
  | nil => rfl
  | cons t rest ih =>
      simp only [setStatus]
      split <;> simp [ih]

/-- Pointwise view of `setStatus`: each position is either untouched or
held a transaction with the targeted id and had only its status field
overwritten. -/
theorem setStatus_getElem? (ts : List Transaction) (tid : Nat) (st : String) (i : Nat) :
    (setStatus ts tid st)[i]? = ts[i]? ∨
    ∃ a, ts[i]? = some a ∧ a.id = tid ∧
      (setStatus ts tid st)[i]? = some { a with status := st } := by
  induction ts generalizing i with
  | nil => left; rfl
  | cons t rest ih =>
      by_cases h : t.id = tid
      · cases i with
        | zero => exact Or.inr ⟨t, by simp, h, by simp [setStatus, h]⟩
        | succ n => left; simp [setStatus, h]
      · cases i with
        | zero => left; simp [setStatus, h]
        | succ n =>
            rcases ih n with h1 | ⟨a, ha, haid, ha'⟩
            · left; simpa [setStatus, h] using h1
            · exact Or.inr ⟨a, by simpa using ha, haid, by simpa [setStatus, h] using ha'⟩

/-- Pointwise view of `setStatus` when the row the update targets is known
to be the one `find?` located: each position is untouched, or held exactly
that row and got its status overwritten. -/
theorem setStatus_getElem?_of_find? (ts : List Transaction) (tid : Nat) (st : String)
    (t : Transaction) (hf : ts.find? (fun x => x.id == tid) = some t) (i : Nat) :
    (setStatus ts tid st)[i]? = ts[i]? ∨
    (ts[i]? = some t ∧ (setStatus ts tid st)[i]? = some { t with status := st }) := by
  induction ts generalizing i with
  | nil => cases hf
  | cons a rest ih =>
      by_cases h : a.id = tid
      · have hta : t = a := by
          have : some a = some t := by simpa [List.find?, h] using hf
          exact (Option.some.inj this).symm
        subst hta
        cases i with
        | zero => exact Or.inr ⟨by simp, by simp [setStatus, h]⟩
        | succ n => left; simp [setStatus, h]
      · have hf' : rest.find? (fun x => x.id == tid) = some t := by
          rwa [List.find?_cons_of_neg _ (by simp [h])] at hf
        cases i with
        | zero => left; simp [setStatus, h]
        | succ n =>
            rcases ih hf' n with h1 | ⟨h1, h2⟩
            · left; simpa [setStatus, h] using h1
            · exact Or.inr ⟨by simpa using h1, by simpa [setStatus, h] using h2⟩

/-- After `setStatus`, the primary-key lookup finds the same row with its
status overwritten. -/
theorem find?_setStatus (ts : List Transaction) (tid : Nat) (st : String)
    (t : Transaction) (hf : ts.find? (fun x => x.id == tid) = some t) :
    (setStatus ts tid st).find? (fun x => x.id == tid) =
      some { t with status := st } := by
  induction ts with
  | nil => cases hf
  | cons a rest ih =>
      by_cases h : a.id = tid
      · have hta : t = a := by
          have : some a = some t := by simpa [List.find?, h] using hf
          exact (Option.some.inj this).symm
        subst hta
        simp [setStatus, List.find?, h]
      · have hf' : rest.find? (fun x => x.id == tid) = some t := by
          rwa [List.find?_cons_of_neg _ (by simp [h])] at hf
        simp only [setStatus, beq_iff_eq, h, if_false]
        rw [List.find?_cons_of_neg _ (by simp [h])]
        exact ih hf'

/-! ### Properties of the sweep loop -/

/-- What one iteration does to a stale row: expire, commit, then raise on
`transaction.user`. -/
theorem sweepOne_expired_eq (now : Int) (s : Store) (t : Transaction)
    (h : now - t.created_at > 900) :
    sweepOne now s t =
      { store := { s with transactions := setStatus s.transactions t.id "expired" },
        events := [Event.commit t.id "expired"],
        error := some (PyError.attributeError
          "'Transaction' object has no attribute 'user'") } := by
  unfold sweepOne
  simp [h]

/-- A row aged 900 seconds or less is skipped without any action. -/
theorem sweepOne_fresh_eq (now : Int) (s : Store) (t : Transaction)
    (h : ¬ now - t.created_at > 900) :
    sweepOne now s t = { store := s, events := [], error := none } := by
  unfold sweepOne
  simp [h]

/-- When the head of the snapshot is stale, the loop commits its expiry and
aborts there: the rest of the snapshot is never visited. -/
theorem sweepGo_cons_expired (now : Int) (s : Store) (t : Transaction)
    (rest : List Transaction) (h : now - t.created_at > 900) :
    sweepGo now s (t :: rest) =
      { store := { s with transactions := setStatus s.transactions t.id "expired" },
        events := [Event.commit t.id "expired"],
        error := some (PyError.attributeError
          "'Transaction' object has no attribute 'user'") } := by
  simp only [sweepGo, sweepOne_expired_eq now s t h]

/-- When the head of the snapshot is fresh, the loop moves on unchanged. -/
theorem sweepGo_cons_fresh (now : Int) (s : Store) (t : Transaction)
    (rest : List Transaction) (h : ¬ now - t.created_at > 900) :
    sweepGo now s (t :: rest) = sweepGo now s rest := by
  simp only [sweepGo, sweepOne_fresh_eq now s t h, List.nil_append]

theorem sweepGo_users (now : Int) (l : List Transaction) (s : Store) :
    (sweepGo now s l).store.users = s.users := by
  induction l generalizing s with
  | nil => rfl
  | cons t rest ih =>
      by_cases hexp : now - t.created_at > 900
      · rw [sweepGo_cons_expired now s t rest hexp]
      · rw [sweepGo_cons_fresh now s t rest hexp]
        exact ih s

theorem sweepGo_map_id (now : Int) (l : List Transaction) (s : Store) :
    (sweepGo now s l).store.transactions.map (fun x => x.id) =
      s.transactions.map (fun x => x.id) := by
  induction l generalizing s with
  | nil => rfl
  | cons t rest ih =>
      by_cases hexp : now - t.created_at > 900
      · rw [sweepGo_cons_expired now s t rest hexp]
        exact setStatus_map_id s.transactions t.id "expired"
      · rw [sweepGo_cons_fresh now s t rest hexp]
        exact ih s

theorem sweepGo_map_commission (now : Int) (l : List Transaction) (s : Store) :
    (sweepGo now s l).store.transactions.map (fun x => x.commission) =
      s.transactions.map (fun x => x.commission) := by
  induction l generalizing s with
  | nil => rfl
  | cons t rest ih =>
      by_cases hexp : now - t.created_at > 900
      · rw [sweepGo_cons_expired now s t rest hexp]
        exact setStatus_map_commission s.transactions t.id "expired"
      · rw [sweepGo_cons_fresh now s t rest hexp]
        exact ih s

theorem sweepGo_length (now : Int) (l : List Transaction) (s : Store) :
    (sweepGo now s l).store.transactions.length = s.transactions.length := by
  have h := congrArg List.length (sweepGo_map_id now l s)
  simpa using h

/-- Characterization of the loop over any snapshot of pending rows of a
store with unique primary keys: each position of the transaction table
either keeps its row unchanged, or held a pending row and got exactly its
status flipped to `'expired'`.  (At most one position actually changes —
the loop aborts after its first commit — but this weaker per-position form
is all the lifecycle claims need.) -/
theorem sweepGo_char (now : Int) (l : List Transaction) :
    ∀ (s : Store),
      (s.transactions.map (fun x => x.id)).Nodup →
      (∀ t ∈ l, t ∈ s.transactions ∧ t.status = "pending") →
      ∀ (i : Nat) (a : Transaction), s.transactions[i]? = some a →
        (sweepGo now s l).store.transactions[i]? = some a ∨
        (a.status = "pending" ∧
         (sweepGo now s l).store.transactions[i]? = some { a with status := "expired" }) := by
  induction l with
  | nil => intro s _ _ i a ha; exact Or.inl ha
  | cons t rest ih =>
      intro s hnd hl i a ha
      by_cases hexp : now - t.created_at > 900
      · rw [sweepGo_cons_expired now s t rest hexp]
        rcases setStatus_getElem? s.transactions t.id "expired" i with hcase | ⟨b, hb, hbid, hb'⟩
        · left
          rw [show ({ s with
            transactions := setStatus s.transactions t.id "expired" } : Store).transactions =
              setStatus s.transactions t.id "expired" from rfl, hcase]
          exact ha
        · have hba : b = a := by
            rw [ha] at hb
            exact (Option.some.inj hb).symm
          subst hba
          have hamem : b ∈ s.transactions := memOfGetElem? ha
          have htmem : t ∈ s.transactions := (hl t (List.mem_cons_self t rest)).1
          have hat : b = t := List.inj_on_of_nodup_map hnd hamem htmem (by rw [hbid])
          have hstat : b.status = "pending" := by
            rw [hat]
            exact (hl t (List.mem_cons_self t rest)).2
          exact Or.inr ⟨hstat, hb'⟩
      · rw [sweepGo_cons_fresh now s t rest hexp]
        exact ih s hnd (fun t' ht' => hl t' (List.mem_cons_of_mem _ ht')) i a ha

/-- Characterization of one whole sweep over a store with unique primary
keys: each position of the transaction table either keeps its row, or held
a pending row and got exactly its status flipped to `'expired'`. -/
theorem sweepLoop_char (now : Int) (s : Store)
    (hnd : (s.transactions.map (fun x => x.id)).Nodup) (i : Nat) (a : Transaction)
    (ha : s.transactions[i]? = some a) :
    (sweepLoop now s).store.transactions[i]? = some a ∨
    (a.status = "pending" ∧
     (sweepLoop now s).store.transactions[i]? = some { a with status := "expired" }) := by
  apply sweepGo_char now _ s hnd _ i a ha
  intro t ht
  obtain ⟨hmem, hstat⟩ := List.mem_filter.mp ht
  exact ⟨hmem, by simpa using hstat⟩

/-! ### Trace discipline of the sweep loop -/

/-- No run of the loop ever emits a webhook POST: line 217 raises before
line 218 is reached. -/
theorem sweepGo_no_post (now : Int) (l : List Transaction) :
    ∀ (s : Store), (sweepGo now s l).events.all (fun e => !e.isPost) = true := by
  induction l with
  | nil => intro s; rfl
  | cons t rest ih =>
      intro s
      by_cases hexp : now - t.created_at > 900
      · rw [sweepGo_cons_expired now s t rest hexp]
        rfl
      · rw [sweepGo_cons_fresh now s t rest hexp]
        exact ih s

/-- A trace with no POST events trivially satisfies the
commit-before-notify check. -/
theorem goodTrace_of_no_post :
    ∀ (evs : List Event) (c : List Nat),
      evs.all (fun e => !e.isPost) = true → goodTrace c evs = true := by
  intro evs
  induction evs with
  | nil => intro c _; rfl
  | cons e rest ih =>
      intro c h
      cases e with
      | commit tid st =>
          have h' : rest.all (fun e => !e.isPost) = true := by
            simpa [Event.isPost] using h
          simp only [goodTrace]
          exact ih _ h'
      | post url tid st =>
          simp [Event.isPost] at h

/-! ### Properties of cancelation -/

/-- `cancel_transaction` either leaves the store untouched, or the looked-up
row was pending and exactly its status was set to `'canceled'`. -/
theorem cancel_store_cases (s : Store) (tid : Nat) :
    (cancel_transaction s tid).2 = s ∨
    ∃ t, getTransaction s tid = some t ∧ t.status = "pending" ∧
      (cancel_transaction s tid).2 =
        { s with transactions := setStatus s.transactions tid "canceled" } := by
  unfold cancel_transaction
  cases h : getTransaction s tid with
  | none => left; rfl
  | some t =>
      by_cases hp : t.status = "pending"
      · right; exact ⟨t, rfl, hp, by simp [hp]⟩
      · left; simp [hp]

theorem cancel_users (s : Store) (tid : Nat) :
    (cancel_transaction s tid).2.users = s.users := by
  rcases cancel_store_cases s tid with h | ⟨t, _, _, h⟩ <;> rw [h]

theorem cancel_map_commission (s : Store) (tid : Nat) :
    (cancel_transaction s tid).2.transactions.map (fun x => x.commission) =
      s.transactions.map (fun x => x.commission) := by
  rcases cancel_store_cases s tid with h | ⟨t, _, _, h⟩ <;> rw [h]
  exact setStatus_map_commission s.transactions tid "canceled"

theorem cancel_length (s : Store) (tid : Nat) :
    (cancel_transaction s tid).2.transactions.length = s.transactions.length := by
  rcases cancel_store_cases s tid with h | ⟨t, _, _, h⟩ <;> rw [h]
  exact setStatus_length s.transactions tid "canceled"

theorem check_store_eq (s : Store) (tid : Nat) : (check_transaction s tid).2 = s := by
  unfold check_transaction
  split <;> rfl

/-- What `create_transaction` computes when the user exists: the answer is
201 with the fresh id and the store gains exactly one pending row carrying
the snapshotted commission. -/
theorem create_found_eq (s : Store) (uid : Nat) (a : Rat) (now : Int) (u : User)
    (hu : getUser s uid = some u) :
    create_transaction s uid a now =
      (CreateResult.created (nextId s),
       { s with transactions := s.transactions ++
          [{ id := nextId s, amount := a, commission := a * u.commission_rate,
             status := "pending", created_at := now, user_id := uid }] }) := by
  unfold create_transaction
  rw [hu]

/-- Pointwise view of `cancel_transaction` on the transaction table: each
position either keeps its row, or held the pending row the handler looked
up and got exactly its status set to `'canceled'`. -/
theorem cancel_getElem? (s : Store) (tid : Nat) (i : Nat) :
    (cancel_transaction s tid).2.transactions[i]? = s.transactions[i]? ∨
    ∃ t, getTransaction s tid = some t ∧ t.status = "pending" ∧
      s.transactions[i]? = some t ∧
      (cancel_transaction s tid).2.transactions[i]? =
        some { t with status := "canceled" } := by
  rcases cancel_store_cases s tid with h | ⟨t, ht, hp, h⟩
  · rw [h]
    left
    rfl
  · rcases setStatus_getElem?_of_find? s.transactions tid "canceled" t ht i with h1 | ⟨h1, h2⟩
    · left
      rw [h]
      exact h1
    · right
      exact ⟨t, ht, hp, h1, by rw [h]; exact h2⟩

/-! ### The claims -/

/-- C1: the claimed sweep behaviour fails on the code as written, twice
over.  The task `check_pending_transactions` raises AttributeError on its
very first line (src/app.py line 210, `datetime.datetime.utcnow()` after
`from datetime import datetime`), so a pending transaction aged 901
seconds is not expired and no webhook is sent.  And even the loop the task
was meant to run (lines 211-221, embedded as `sweepLoop`) cannot issue the
claimed notification: at now = T + 901s it expires the row with a per-row
commit, but then line 217 (`transaction.user` — no such attribute, the
model declares no relationship) raises AttributeError before the POST at
line 218, so the owner's configured webhook is never called; at
now = T + 899s it leaves the row untouched.  Only the aged-899s half of
the claim survives. -/
theorem c1_sweeper_crashes_before_expiring :
    check_pending_transactions demoStore =
      { store := demoStore, events := [],
        error := some (PyError.attributeError
          "type object 'datetime.datetime' has no attribute 'datetime'") } ∧
    sweepLoop 901 demoStore =
      { store := { users := [demoUser],
                   transactions := [{ demoTx with status := "expired" }] },
        events := [Event.commit 1 "expired"],
        error := some (PyError.attributeError
          "'Transaction' object has no attribute 'user'") } ∧
    sweepLoop 899 demoStore = { store := demoStore, events := [], error := none } :=
  ⟨rfl, rfl, rfl⟩

/-- C2: for an existing user with commission rate `r`, create persists
exactly one new transaction with commission `a * r`, status `'pending'` and
the current timestamp, answers 201 with that row's id — and no shown
operation (cancel, check, sweep) ever changes a stored commission
afterwards. -/
theorem c2_create_commission_snapshot :
    (∀ (s : Store) (uid : Nat) (a : Rat) (now : Int) (u : User),
      getUser s uid = some u →
      create_transaction s uid a now =
        (CreateResult.created (nextId s),
         { s with transactions := s.transactions ++
            [{ id := nextId s, amount := a, commission := a * u.commission_rate,
               status := "pending", created_at := now, user_id := uid }] }) ∧
      (create_transaction s uid a now).1.httpStatus = 201) ∧
    (∀ (s : Store) (tid : Nat),
      (cancel_transaction s tid).2.transactions.map (fun x => x.commission) =
        s.transactions.map (fun x => x.commission)) ∧
    (∀ (s : Store) (tid : Nat), (check_transaction s tid).2 = s) ∧
    (∀ (now : Int) (s : Store),
      (sweepLoop now s).store.transactions.map (fun x => x.commission) =
        s.transactions.map (fun x => x.commission)) := by
  refine ⟨?_, cancel_map_commission, check_store_eq, ?_⟩
  · intro s uid a now u hu
    have he := create_found_eq s uid a now u hu
    exact ⟨he, by rw [he]; rfl⟩
  · intro now s
    exact sweepGo_map_commission now _ s

/-- Witness for C2 at a concrete input: user 1 of `demoStore` has
commission rate 1/100, so creating a transaction of amount 100 at time 5
appends one pending row with commission 1 and id 2 and returns id 2. -/
theorem c2_witness :
    create_transaction demoStore 1 100 5 =
      (CreateResult.created 2,
       { users := [demoUser],
         transactions := [demoTx,
           { id := 2, amount := 100, commission := 1, status := "pending",
             created_at := 5, user_id := 1 }] }) := by
  have h := (c2_create_commission_snapshot.1 demoStore 1 100 5 demoUser rfl).1
  rw [h]
  norm_num [nextId, demoStore, demoUser, demoTx]

/-- C3: cancel answers 404 and changes nothing when the transaction does
not exist; on a pending transaction it flips the status to `'canceled'` and
persists; on any other status it changes nothing; in every non-404 case it
answers 200 with the resulting status. -/
theorem c3_cancel_contract :
    ∀ (s : Store) (tid : Nat),
      (getTransaction s tid = none →
        cancel_transaction s tid = (CancelResult.notFound, s) ∧
        (cancel_transaction s tid).1.httpStatus = 404) ∧
      (∀ t, getTransaction s tid = some t →
        (t.status = "pending" →
          cancel_transaction s tid =
            (CancelResult.ok "canceled",
             { s with transactions := setStatus s.transactions tid "canceled" }) ∧
          (cancel_transaction s tid).1.httpStatus = 200) ∧
        (t.status ≠ "pending" →
          cancel_transaction s tid = (CancelResult.ok t.status, s) ∧
          (cancel_transaction s tid).1.httpStatus = 200)) := by
  intro s tid
  constructor
  · intro h
    have he : cancel_transaction s tid = (CancelResult.notFound, s) := by
      unfold cancel_transaction
      rw [h]
    exact ⟨he, by rw [he]; rfl⟩
  · intro t ht
    constructor
    · intro hp
      have he : cancel_transaction s tid =
          (CancelResult.ok "canceled",
           { s with transactions := setStatus s.transactions tid "canceled" }) := by
        unfold cancel_transaction
        rw [ht]
        simp [hp]
      exact ⟨he, by rw [he]; rfl⟩
    · intro hp
      have he : cancel_transaction s tid = (CancelResult.ok t.status, s) := by
        unfold cancel_transaction
        rw [ht]
        simp [hp]
      exact ⟨he, by rw [he]; rfl⟩

/-- Witness for C3 at concrete inputs: cancel of a missing id answers 404
untouched; cancel of the pending transaction 1 flips it to canceled; cancel
of the confirmed transaction 2 is a no-op answering its status. -/
theorem c3_witness :
    cancel_transaction demoStore 99 = (CancelResult.notFound, demoStore) ∧
    cancel_transaction demoStore 1 =
      (CancelResult.ok "canceled",
       { users := [demoUser],
         transactions := [{ demoTx with status := "canceled" }] }) ∧
    cancel_transaction demoStore2 2 = (CancelResult.ok "confirmed", demoStore2) := by
  refine ⟨((c3_cancel_contract demoStore 99).1 rfl).1, ?_, ?_⟩
  · have h := (((c3_cancel_contract demoStore 1).2 demoTx rfl).1 rfl).1
    rw [h]
    rfl
  · have h := (((c3_cancel_contract demoStore2 2).2 demoConfirmedTx rfl).2 (by decide)).1
    rw [h]
    rfl

/-- C4: a sweep run never changes a transaction whose status is not
`'pending'`, whatever its age: over a store with unique primary keys, the
users table, the length of the transaction table, and every non-pending row
are all exactly as before — whether the run commits an expiry before
aborting on line 217 or not.  (The deployed task aborts at line 210 and
changes nothing at all, so the claim holds of it a fortiori.) -/
theorem c4_sweep_preserves_nonpending :
    ∀ (now : Int) (s : Store),
      (s.transactions.map (fun x => x.id)).Nodup →
      (sweepLoop now s).store.users = s.users ∧
      (sweepLoop now s).store.transactions.length = s.transactions.length ∧
      (∀ (i : Nat) (a : Transaction), s.transactions[i]? = some a →
        a.status ≠ "pending" →
        (sweepLoop now s).store.transactions[i]? = some a) ∧
      (check_pending_transactions s).store = s := by
  intro now s hnd
  refine ⟨sweepGo_users now _ s, sweepGo_length now _ s, ?_, rfl⟩
  intro i a ha hstat
  rcases sweepLoop_char now s hnd i a ha with h | ⟨hp, _⟩
  · exact h
  · exact absurd hp hstat

/-- Witness for C4 at a concrete input: sweeping `demoStore2` at time 2000
(both rows aged 2000s) leaves the confirmed transaction at position 1
exactly as it was. -/
theorem c4_witness :
    (sweepLoop 2000 demoStore2).store.transactions[1]? = some demoConfirmedTx := by
  have h := c4_sweep_preserves_nonpending 2000 demoStore2 (by decide)
  exact h.2.2.1 1 demoConfirmedTx rfl (by decide)

/-- C5: create with a `user_id` that references no existing user answers
404 and leaves the store exactly unchanged, for every amount. -/
theorem c5_create_unknown_user :
    ∀ (s : Store) (uid : Nat) (a : Rat) (now : Int),
      getUser s uid = none →
      create_transaction s uid a now = (CreateResult.notFound, s) ∧
      (create_transaction s uid a now).1.httpStatus = 404 := by
  intro s uid a now h
  have he : create_transaction s uid a now = (CreateResult.notFound, s) := by
    unfold create_transaction
    rw [h]
  exact ⟨he, by rw [he]; rfl⟩

/-- Witness for C5 at a concrete input: creating against the empty store
answers 404 and persists nothing. -/
theorem c5_witness :
    create_transaction emptyStore 1 5 0 = (CreateResult.notFound, emptyStore) :=
  (c5_create_unknown_user emptyStore 1 5 0 rfl).1

/-- C6: the transaction lifecycle.  Create appends exactly one row and its
status is `'pending'` (existing statuses untouched); cancel changes a row's
status only from `'pending'` and only to `'canceled'`; the sweeper changes
a row's status only from `'pending'` and only to `'expired'` (over unique
primary keys); check changes nothing.  Hence `'confirmed'` is set by no
shown operation, a terminal row is never modified, and every status drawn
from the four intended values stays among them. -/
theorem c6_lifecycle :
    (∀ (s : Store) (uid : Nat) (a : Rat) (now : Int) (u : User),
      getUser s uid = some u →
      (create_transaction s uid a now).2.transactions.map (fun x => x.status) =
        s.transactions.map (fun x => x.status) ++ ["pending"]) ∧
    (∀ (s : Store) (tid : Nat) (i : Nat) (a : Transaction),
      s.transactions[i]? = some a →
      (cancel_transaction s tid).2.transactions[i]? = some a ∨
      (a.status = "pending" ∧
       (cancel_transaction s tid).2.transactions[i]? =
         some { a with status := "canceled" })) ∧
    (∀ (now : Int) (s : Store),
      (s.transactions.map (fun x => x.id)).Nodup →
      ∀ (i : Nat) (a : Transaction), s.transactions[i]? = some a →
        (sweepLoop now s).store.transactions[i]? = some a ∨
        (a.status = "pending" ∧
         (sweepLoop now s).store.transactions[i]? =
           some { a with status := "expired" })) ∧
    (∀ (s : Store) (tid : Nat), (check_transaction s tid).2 = s) ∧
    (∀ (s : Store) (tid : Nat) (i : Nat) (a b : Transaction),
      s.transactions[i]? = some a → validStatus a.status →
      (cancel_transaction s tid).2.transactions[i]? = some b →
      validStatus b.status) ∧
    (∀ (now : Int) (s : Store),
      (s.transactions.map (fun x => x.id)).Nodup →
      ∀ (i : Nat) (a b : Transaction), s.transactions[i]? = some a →
        validStatus a.status →
        (sweepLoop now s).store.transactions[i]? = some b →
        validStatus b.status) := by
  have hcancel : ∀ (s : Store) (tid : Nat) (i : Nat) (a : Transaction),
      s.transactions[i]? = some a →
      (cancel_transaction s tid).2.transactions[i]? = some a ∨
      (a.status = "pending" ∧
       (cancel_transaction s tid).2.transactions[i]? =
         some { a with status := "canceled" }) := by
    intro s tid i a ha
    rcases cancel_getElem? s tid i with h | ⟨t, _, hp, h1, h2⟩
    · left
      rw [h, ha]
    · have hat : a = t := by
        rw [ha] at h1
        exact Option.some.inj h1
      subst hat
      exact Or.inr ⟨hp, h2⟩
  refine ⟨?_, hcancel, fun now s hnd => sweepLoop_char now s hnd, check_store_eq, ?_, ?_⟩
  · intro s uid a now u hu
    rw [create_found_eq s uid a now u hu]
    simp
  · intro s tid i a b ha hva hb
    rcases hcancel s tid i a ha with h | ⟨_, h⟩
    · rw [h] at hb
      exact (Option.some.inj hb) ▸ hva
    · rw [h] at hb
      rw [← Option.some.inj hb]
      simp [validStatus]
  · intro now s hnd i a b ha hva hb
    rcases sweepLoop_char now s hnd i a ha with h | ⟨_, h⟩
    · rw [h] at hb
      exact (Option.some.inj hb) ▸ hva
    · rw [h] at hb
      rw [← Option.some.inj hb]
      simp [validStatus]

/-- Witness for C6 at concrete inputs: a freshly created transaction is
pending; cancel and sweep act on the pending demo row only through the
allowed transition; the confirmed row's status stays valid through a
sweep. -/
theorem c6_witness :
    (create_transaction demoStore 1 100 5).2.transactions.map (fun x => x.status) =
      demoStore.transactions.map (fun x => x.status) ++ ["pending"] ∧
    ((cancel_transaction demoStore 1).2.transactions[0]? = some demoTx ∨
     (demoTx.status = "pending" ∧
      (cancel_transaction demoStore 1).2.transactions[0]? =
        some { demoTx with status := "canceled" })) ∧
    ((sweepLoop 2000 demoStore2).store.transactions[0]? = some demoTx ∨
     (demoTx.status = "pending" ∧
      (sweepLoop 2000 demoStore2).store.transactions[0]? =
        some { demoTx with status := "expired" })) ∧
    validStatus demoConfirmedTx.status := by
  refine ⟨c6_lifecycle.1 demoStore 1 100 5 demoUser rfl,
          c6_lifecycle.2.1 demoStore 1 0 demoTx rfl,
          c6_lifecycle.2.2.1 2000 demoStore2 (by decide) 0 demoTx rfl, ?_⟩
  exact c6_lifecycle.2.2.2.2.2 2000 demoStore2 (by decide) 1 demoConfirmedTx
    demoConfirmedTx rfl (Or.inr (Or.inl rfl)) rfl

/-- C7: check answers 404 when the transaction does not exist, otherwise
200 with exactly the transaction's identifier and current status, and in
either case leaves the whole store (every transaction and every user)
unchanged. -/
theorem c7_check_contract :
    ∀ (s : Store) (tid : Nat),
      (check_transaction s tid).2 = s ∧
      (getTransaction s tid = none →
        (check_transaction s tid).1 = CheckResult.notFound ∧
        (check_transaction s tid).1.httpStatus = 404) ∧
      (∀ t, getTransaction s tid = some t →
        (check_transaction s tid).1 = CheckResult.ok t.id t.status ∧
        (check_transaction s tid).1.httpStatus = 200) := by
  intro s tid
  refine ⟨check_store_eq s tid, ?_, ?_⟩
  · intro h
    have he : (check_transaction s tid).1 = CheckResult.notFound := by
      unfold check_transaction
      rw [h]
    exact ⟨he, by rw [he]; rfl⟩
  · intro t ht
    have he : (check_transaction s tid).1 = CheckResult.ok t.id t.status := by
      unfold check_transaction
      rw [ht]
    exact ⟨he, by rw [he]; rfl⟩

/-- Witness for C7 at concrete inputs: checking id 1 of `demoStore` is
read-only and answers its id and status; checking the missing id 99
answers 404. -/
theorem c7_witness :
    (check_transaction demoStore 1).2 = demoStore ∧
    (check_transaction demoStore 99).1 = CheckResult.notFound ∧
    (check_transaction demoStore 1).1 = CheckResult.ok 1 "pending" := by
  refine ⟨(c7_check_contract demoStore 1).1,
          ((c7_check_contract demoStore 99).2.1 rfl).1, ?_⟩
  exact ((c7_check_contract demoStore 1).2.2 demoTx rfl).1

/-- C8: on a pending transaction the first cancel answers
status = canceled, and a second cancel of the same id is a no-op that
answers canceled again and leaves the store bit-for-bit identical. -/
theorem c8_cancel_idempotent :
    ∀ (s : Store) (tid : Nat) (t : Transaction),
      getTransaction s tid = some t → t.status = "pending" →
      (cancel_transaction s tid).1 = CancelResult.ok "canceled" ∧
      cancel_transaction (cancel_transaction s tid).2 tid =
        (CancelResult.ok "canceled", (cancel_transaction s tid).2) := by
  intro s tid t ht hp
  have he : cancel_transaction s tid =
      (CancelResult.ok "canceled",
       { s with transactions := setStatus s.transactions tid "canceled" }) := by
    unfold cancel_transaction
    rw [ht]
    simp [hp]
  have hfind : getTransaction
      ({ s with transactions := setStatus s.transactions tid "canceled" } : Store) tid =
      some { t with status := "canceled" } := by
    unfold getTransaction
    exact find?_setStatus s.transactions tid "canceled" t ht
  constructor
  · rw [he]
  · rw [he]
    unfold cancel_transaction
    rw [hfind]
    rfl

/-- Witness for C8 at a concrete input: canceling the pending transaction 1
of `demoStore` answers canceled, and canceling it again is a no-op
answering canceled on the unchanged store. -/
theorem c8_witness :
    (cancel_transaction demoStore 1).1 = CancelResult.ok "canceled" ∧
    cancel_transaction (cancel_transaction demoStore 1).2 1 =
      (CancelResult.ok "canceled", (cancel_transaction demoStore 1).2) :=
  c8_cancel_idempotent demoStore 1 demoTx rfl rfl

/-- C9: whatever the looked-up transaction's starting status, cancel
modifies at most the status field of that one row — every position of the
transaction table either keeps its row, or held the pending row with the
requested id and got exactly its status set to canceled — and the users
table and the table length are unchanged. -/
theorem c9_cancel_frame :
    ∀ (s : Store) (tid : Nat),
      (cancel_transaction s tid).2.users = s.users ∧
      (cancel_transaction s tid).2.transactions.length = s.transactions.length ∧
      ∀ (i : Nat),
        (cancel_transaction s tid).2.transactions[i]? = s.transactions[i]? ∨
        ∃ t, getTransaction s tid = some t ∧ t.status = "pending" ∧
          s.transactions[i]? = some t ∧
          (cancel_transaction s tid).2.transactions[i]? =
            some { t with status := "canceled" } := by
  intro s tid
  exact ⟨cancel_users s tid, cancel_length s tid, fun i => cancel_getElem? s tid i⟩

/-- Witness for C9 at a concrete input: canceling transaction 1 of
`demoStore` keeps the users table. -/
theorem c9_witness :
    (cancel_transaction demoStore 1).2.users = demoStore.users :=
  (c9_cancel_frame demoStore 1).1

/-- C10: vacuously true, and the theorem makes the vacuity explicit.
Scanning the actions of any run of the sweep loop in program order, every
webhook POST names a transaction already committed as expired earlier in
the run (the claim as stated, first conjunct) — but only because no run
ever emits a POST at all (second conjunct): each expiring iteration
commits at line 215 and then aborts at line 217 on `transaction.user`,
before the `requests.post` at line 218; and the deployed task (third
conjunct) aborts at line 210 and performs no action whatsoever. -/
theorem c10_commit_before_post :
    ∀ (now : Int) (s : Store),
      goodTrace [] (sweepLoop now s).events = true ∧
      (sweepLoop now s).events.all (fun e => !e.isPost) = true ∧
      (check_pending_transactions s).events = [] := by
  intro now s
  exact ⟨goodTrace_of_no_post _ [] (sweepGo_no_post now _ s),
         sweepGo_no_post now _ s, rfl⟩

/-- Witness for C10 at a concrete input: the trace of sweeping `demoStore`
at time 901 — the commit of the expiry and nothing after it — passes the
commit-before-notify check and contains no POST. -/
theorem c10_witness :
    goodTrace [] (sweepLoop 901 demoStore).events = true ∧
    (sweepLoop 901 demoStore).events.all (fun e => !e.isPost) = true ∧
    (check_pending_transactions demoStore).events = [] :=
  c10_commit_before_post 901 demoStore

end FlaskTest
